import Mathlib

/-!
Verification of the request-dispatch engine of the stress-test repository
(`internal/runner/runner.go`).

The engine drives a pool of workers that issue HTTP requests under one of
three execution policies (count-bounded `RunWithOptions`, duration-bounded
`RunForDuration`, paced `RunForDurationWithRate`) and aggregates per-attempt
outcomes into a `Report` under a mutex.

Embedding choices:
- the network is nondeterministic, so a run is modelled as a function of the
  arrival-ordered list of per-attempt outcomes (the order in which worker
  updates reach the mutex); every attempt is classified as a transport or
  construction failure, or as a completed exchange carrying a status code;
- Go's `map[int]int` with `m[k]++` is modelled by an association list with a
  `bump` operation (missing key reads as 0 and is created at 1);
- `time.Duration` (an int64 of nanoseconds) is modelled as `Int`, and the
  float64 arithmetic of `Report.RPS` over the rationals;
- the paced generator of `RunForDurationWithRate` (source lines 226 and
  241-261) is modelled as a transition system over the buffered `jobs`
  channel of capacity 1024.
-/

namespace StressTest

/-- The classified result of one request attempt: a transport or construction
failure (`client.Do` or `http.NewRequestWithContext` returned an error), or a
completed HTTP exchange with its status code. -/
inductive Outcome where
  | failure
  | success (status : Nat)
deriving DecidableEq, Repr

/-- `runner.Report` (runner.go lines 13-19): duration in nanoseconds,
total requests, count of status-200 responses, status histogram, error count.
The Go map is an association list of (statusCode, count) pairs. -/
structure Report where
  duration : Int
  totalRequests : Nat
  succeeded200 : Nat
  statusCounts : List (Nat × Nat)
  errors : Nat
deriving DecidableEq, Repr

/-- Go `rep.StatusCounts[code]++`: increment the entry for `code`, creating it
at 1 when absent. -/
def bump : List (Nat × Nat) → Nat → List (Nat × Nat)
  | [], code => [(code, 1)]
  | (k, v) :: rest, code =>
      if k = code then (k, v + 1) :: rest else (k, v) :: bump rest code

/-- Go map read `m[code]` (0 when the key is absent). -/
def lookupCount : List (Nat × Nat) → Nat → Nat
  | [], _ => 0
  | (k, v) :: rest, code => if k = code then v else lookupCount rest code

/-- Sum of all values of the status histogram. -/
def sumCounts : List (Nat × Nat) → Nat
  | [] => 0
  | (_, v) :: rest => v + sumCounts rest

/-- One worker iteration of `RunWithOptions` (runner.go lines 76-104): a
failed construction or exchange increments `Errors`; a completed exchange
increments the histogram entry for its status and, when the status is 200,
`Succeeded200`. `TotalRequests` is not touched by workers in this mode. -/
def recordCount (rep : Report) (o : Outcome) : Report :=
  match o with
  | .failure => { rep with errors := rep.errors + 1 }
  | .success code =>
      { rep with
          statusCounts := bump rep.statusCounts code,
          succeeded200 :=
            if code = 200 then rep.succeeded200 + 1 else rep.succeeded200 }

/-- One worker iteration of `RunForDuration` (runner.go lines 169-197) and of
`RunForDurationWithRate` (lines 277-305): identical to `recordCount` except
that a completed exchange also increments `TotalRequests`. -/
def recordDuration (rep : Report) (o : Outcome) : Report :=
  match o with
  | .failure => { rep with errors := rep.errors + 1 }
  | .success code =>
      { rep with
          totalRequests := rep.totalRequests + 1,
          statusCounts := bump rep.statusCounts code,
          succeeded200 :=
            if code = 200 then rep.succeeded200 + 1 else rep.succeeded200 }

/-- Go `time.Duration.Seconds()`: nanoseconds divided by 1e9, over ℚ. -/
def durationSeconds (d : Int) : ℚ := (d : ℚ) / 1000000000

/-- `Report.RPS` (runner.go lines 22-27): 0 when `Duration <= 0`, otherwise
`float64(TotalRequests) / Duration.Seconds()`. -/
def Report.RPS (r : Report) : ℚ :=
  if r.duration ≤ 0 then 0
  else (r.totalRequests : ℚ) / durationSeconds r.duration

/-- The concurrency coercion shared by all three entry operations
(runner.go lines 109-111, 201-203, 309-311): `if concurrency < 1 then 1`. -/
def effectiveConcurrency (c : Int) : Int := if c < 1 then 1 else c

/-- `runner.RunWithOptions` (runner.go lines 42-132). The report starts with
`TotalRequests` set to the configured `total` (line 44) and an empty
histogram; `trace` is the arrival-ordered list of outcomes of the jobs the
workers actually processed (at most `total`; fewer when the context is
cancelled, lines 118-127); the stamped duration is `dur`; the returned Go
error is always nil (line 131). -/
def RunWithOptions (total : Nat) (concurrency : Int) (trace : List Outcome)
    (dur : Int) : Report × Option String :=
  let _workers := effectiveConcurrency concurrency
  let init : Report :=
    { duration := 0, totalRequests := total, succeeded200 := 0,
      statusCounts := [], errors := 0 }
  let rep := trace.foldl recordCount init
  ({ rep with duration := dur }, none)

/-- `runner.RunForDuration` (runner.go lines 135-211). The report starts at
zero with an empty histogram; workers loop until deadline or cancellation,
producing `trace`; the returned Go error is always nil (line 210). -/
def RunForDuration (concurrency : Int) (trace : List Outcome) (dur : Int) :
    Report × Option String :=
  let _workers := effectiveConcurrency concurrency
  let init : Report :=
    { duration := 0, totalRequests := 0, succeeded200 := 0,
      statusCounts := [], errors := 0 }
  let rep := trace.foldl recordDuration init
  ({ rep with duration := dur }, none)

/-- `runner.RunForDurationWithRate` (runner.go lines 215-321). When
`rps <= 0` the function returns the freshly initialized report before
stamping the duration and before spawning the generator or any worker
(lines 219-221), so no request is issued; otherwise workers consume paced
permits, producing `trace`. The returned Go error is always nil. -/
def RunForDurationWithRate (rate : ℚ) (concurrency : Int)
    (trace : List Outcome) (dur : Int) : Report × Option String :=
  let init : Report :=
    { duration := 0, totalRequests := 0, succeeded200 := 0,
      statusCounts := [], errors := 0 }
  if rate ≤ 0 then (init, none)
  else
    let _workers := effectiveConcurrency concurrency
    let rep := trace.foldl recordDuration init
    ({ rep with duration := dur }, none)

/-- Capacity of the `jobs` channel of the paced mode:
`make(chan struct\x7b\x7d, 1024)` (runner.go line 226). -/
def jobsCapacity : Nat := 1024

/-- State of the paced generator and its permit channel: how many emitted
permits sit unconsumed in the channel buffer, and whether the generator has
observed the deadline or cancellation. -/
structure PacerState where
  queued : Nat
  stopped : Bool
deriving DecidableEq, Repr

/-- Transitions of the paced generator (runner.go lines 241-261) and of the
workers consuming from `jobs` (line 265): the generator may emit a permit on
a ticker tick while not stopped and while the channel buffer has room; a
worker may consume a buffered permit; the deadline or cancellation may fire
at any time, after which the generator returns and never emits again. -/
inductive PacerStep : PacerState → PacerState → Prop
  | emit (s : PacerState) : s.stopped = false → s.queued < jobsCapacity →
      PacerStep s ⟨s.queued + 1, false⟩
  | consume (s : PacerState) : 0 < s.queued →
      PacerStep s ⟨s.queued - 1, s.stopped⟩
  | stop (s : PacerState) : PacerStep s ⟨s.queued, true⟩

/-- Initial pacer state: empty channel, generator running. -/
def PacerInit : PacerState := ⟨0, false⟩

/-- States reachable from `PacerInit` through `PacerStep`. -/
inductive PacerReachable : PacerState → Prop
  | init : PacerReachable PacerInit
  | step {s s' : PacerState} : PacerReachable s → PacerStep s s' →
      PacerReachable s'

/-- Number of completed exchanges in a trace. -/
def countSuccesses : List Outcome → Nat
  | [] => 0
  | Outcome.failure :: rest => countSuccesses rest
  | Outcome.success _ :: rest => countSuccesses rest + 1

/-- Number of failed attempts in a trace. -/
def countFailures : List Outcome → Nat
  | [] => 0
  | Outcome.failure :: rest => countFailures rest + 1
  | Outcome.success _ :: rest => countFailures rest

theorem countSuccesses_add_countFailures (trace : List Outcome) :
    countSuccesses trace + countFailures trace = trace.length := by
  induction trace with
  | nil => rfl
  | cons o rest ih =>
    cases o <;> simp [countSuccesses, countFailures, List.length_cons] <;> omega

theorem sumCounts_bump (m : List (Nat × Nat)) (c : Nat) :
    sumCounts (bump m c) = sumCounts m + 1 := by
  induction m with
  | nil => rfl
  | cons hd tl ih =>
    obtain ⟨k, v⟩ := hd
    by_cases h : k = c <;> simp [bump, sumCounts, h, ih] <;> omega

theorem lookupCount_bump (m : List (Nat × Nat)) (c k : Nat) :
    lookupCount (bump m c) k = lookupCount m k + (if c = k then 1 else 0) := by
  induction m with
  | nil =>
    by_cases h : c = k <;> simp [bump, lookupCount, h]
  | cons hd tl ih =>
    obtain ⟨k', v⟩ := hd
    by_cases h1 : k' = c
    · subst h1
      by_cases h2 : k' = k
      · subst h2; simp [bump, lookupCount]
      · simp [bump, lookupCount, h2]
    · by_cases h2 : k' = k
      · subst h2
        have hck : ¬ c = k' := fun h => h1 h.symm
        simp [bump, lookupCount, h1, hck]
      · simp [bump, lookupCount, h1, h2, ih]

theorem foldl_recordCount_fields (trace : List Outcome) (init : Report) :
    (trace.foldl recordCount init).totalRequests = init.totalRequests ∧
    (trace.foldl recordCount init).errors = init.errors + countFailures trace ∧
    sumCounts (trace.foldl recordCount init).statusCounts =
      sumCounts init.statusCounts + countSuccesses trace ∧
    (trace.foldl recordCount init).duration = init.duration := by
  induction trace generalizing init with
  | nil => simp [countFailures, countSuccesses]
  | cons o rest ih =>
    obtain ⟨h1, h2, h3, h4⟩ := ih (recordCount init o)
    cases o with
    | failure =>
      refine ⟨?_, ?_, ?_, ?_⟩ <;>
        simp [List.foldl_cons, recordCount] at h1 h2 h3 h4 ⊢ <;>
        simp [h1, h2, h3, h4, countFailures, countSuccesses] <;> omega
    | success code =>
      refine ⟨?_, ?_, ?_, ?_⟩ <;>
        simp [List.foldl_cons, recordCount] at h1 h2 h3 h4 ⊢ <;>
        simp [h1, h2, h3, h4, countFailures, countSuccesses, sumCounts_bump] <;>
        omega

theorem foldl_recordDuration_fields (trace : List Outcome) (init : Report) :
    (trace.foldl recordDuration init).totalRequests =
      init.totalRequests + countSuccesses trace ∧
    (trace.foldl recordDuration init).errors =
      init.errors + countFailures trace ∧
    sumCounts (trace.foldl recordDuration init).statusCounts =
      sumCounts init.statusCounts + countSuccesses trace ∧
    (trace.foldl recordDuration init).duration = init.duration := by
  induction trace generalizing init with
  | nil => simp [countFailures, countSuccesses]
  | cons o rest ih =>
    obtain ⟨h1, h2, h3, h4⟩ := ih (recordDuration init o)
    cases o with
    | failure =>
      refine ⟨?_, ?_, ?_, ?_⟩ <;>
        simp [List.foldl_cons, recordDuration] at h1 h2 h3 h4 ⊢ <;>
        simp [h1, h2, h3, h4, countFailures, countSuccesses] <;> omega
    | success code =>
      refine ⟨?_, ?_, ?_, ?_⟩ <;>
        simp [List.foldl_cons, recordDuration] at h1 h2 h3 h4 ⊢ <;>
        simp [h1, h2, h3, h4, countFailures, countSuccesses, sumCounts_bump] <;>
        omega

theorem foldl_recordCount_succ200 (trace : List Outcome) (init : Report)
    (h : init.succeeded200 = lookupCount init.statusCounts 200) :
    (trace.foldl recordCount init).succeeded200 =
      lookupCount (trace.foldl recordCount init).statusCounts 200 := by
  induction trace generalizing init with
  | nil => exact h
  | cons o rest ih =>
    rw [List.foldl_cons]
    apply ih
    cases o with
    | failure => simpa [recordCount] using h
    | success code =>
      by_cases hc : code = 200 <;>
        simp [recordCount, lookupCount_bump, hc, h]

theorem foldl_recordDuration_succ200 (trace : List Outcome) (init : Report)
    (h : init.succeeded200 = lookupCount init.statusCounts 200) :
    (trace.foldl recordDuration init).succeeded200 =
      lookupCount (trace.foldl recordDuration init).statusCounts 200 := by
  induction trace generalizing init with
  | nil => exact h
  | cons o rest ih =>
    rw [List.foldl_cons]
    apply ih
    cases o with
    | failure => simpa [recordDuration] using h
    | success code =>
      by_cases hc : code = 200 <;>
        simp [recordDuration, lookupCount_bump, hc, h]

/-- C3: for every Report, the derived requests-per-second value is 0 when
the duration is nonpositive, and otherwise equals total requests divided by
the duration in seconds (equivalently, totalRequests * 1e9 / nanoseconds). -/
theorem C3_rps (r : Report) :
    (r.duration ≤ 0 → r.RPS = 0) ∧
    (0 < r.duration →
      r.RPS = (r.totalRequests : ℚ) * 1000000000 / (r.duration : ℚ)) := by
  constructor
  · intro h
    simp [Report.RPS, h]
  · intro h
    rw [Report.RPS, if_neg (not_le.mpr h), durationSeconds, div_div_eq_mul_div]

theorem C3_rps_witness :
    ({ duration := 2000000000, totalRequests := 4, succeeded200 := 0,
       statusCounts := [], errors := 0 } : Report).RPS = 2 := by
  rw [(C3_rps _).2 (by norm_num)]
  norm_num

/-- C4: a paced run with a nonpositive target rate returns immediately with
a zero Report (zero counters, empty histogram, duration not even stamped)
and a nil error, issuing no requests. -/
theorem C4_nonpositive_rate (rate : ℚ) (c : Int) (trace : List Outcome)
    (dur : Int) (h : rate ≤ 0) :
    RunForDurationWithRate rate c trace dur =
      ({ duration := 0, totalRequests := 0, succeeded200 := 0,
         statusCounts := [], errors := 0 }, none) := by
  simp [RunForDurationWithRate, h]

theorem C4_nonpositive_rate_witness :
    RunForDurationWithRate 0 8 [Outcome.success 200, Outcome.failure] 77 =
      ({ duration := 0, totalRequests := 0, succeeded200 := 0,
         statusCounts := [], errors := 0 }, none) :=
  C4_nonpositive_rate 0 8 [Outcome.success 200, Outcome.failure] 77 le_rfl

/-- C6: a count-bounded run configured for 0 total requests (so no job is
ever enqueued and the processed trace is empty) returns TotalRequests = 0,
an empty histogram, zero errors and a nil error. -/
theorem C6_zero_total (c : Int) (trace : List Outcome) (dur : Int)
    (h : trace.length ≤ 0) :
    RunWithOptions 0 c trace dur =
      ({ duration := dur, totalRequests := 0, succeeded200 := 0,
         statusCounts := [], errors := 0 }, none) := by
  have hnil : trace = [] := List.eq_nil_of_length_eq_zero (Nat.le_zero.mp h)
  subst hnil
  rfl

theorem C6_zero_total_witness :
    RunWithOptions 0 3 [] 9 =
      ({ duration := 9, totalRequests := 0, succeeded200 := 0,
         statusCounts := [], errors := 0 }, none) :=
  C6_zero_total 3 [] 9 (Nat.le_refl 0)

/-- C7: every entry operation invoked with concurrency < 1 silently coerces
the worker count to 1 and proceeds normally: the produced report is the one
of a run with concurrency 1 and the returned error is nil. -/
theorem C7_concurrency_coercion (c : Int) (h : c < 1) :
    effectiveConcurrency c = 1 ∧
    (∀ (total : Nat) (trace : List Outcome) (dur : Int),
        RunWithOptions total c trace dur = RunWithOptions total 1 trace dur ∧
        (RunWithOptions total c trace dur).2 = none) ∧
    (∀ (trace : List Outcome) (dur : Int),
        RunForDuration c trace dur = RunForDuration 1 trace dur ∧
        (RunForDuration c trace dur).2 = none) ∧
    (∀ (rate : ℚ) (trace : List Outcome) (dur : Int),
        RunForDurationWithRate rate c trace dur =
          RunForDurationWithRate rate 1 trace dur ∧
        (RunForDurationWithRate rate c trace dur).2 = none) := by
  refine ⟨if_pos h, fun total trace dur => ⟨rfl, rfl⟩,
    fun trace dur => ⟨rfl, rfl⟩, fun rate trace dur => ⟨rfl, ?_⟩⟩
  by_cases hr : rate ≤ 0 <;> simp [RunForDurationWithRate, hr]

theorem C7_concurrency_coercion_witness :
    effectiveConcurrency 0 = 1 ∧
    (RunWithOptions 5 0 [Outcome.failure] 3).2 = none := by
  obtain ⟨h1, h2, -, -⟩ := C7_concurrency_coercion 0 (by decide)
  exact ⟨h1, (h2 5 [Outcome.failure] 3).2⟩

/-- C9: in the duration-bounded and the rate-bounded modes, TotalRequests
equals the sum of the histogram values alone: failed attempts increment
Errors (which equals the number of failures in the trace) and are not
counted in TotalRequests. -/
theorem C9_duration_modes_total (c : Int) (trace : List Outcome) (dur : Int)
    (rate : ℚ) :
    (RunForDuration c trace dur).1.totalRequests =
      sumCounts (RunForDuration c trace dur).1.statusCounts ∧
    (RunForDuration c trace dur).1.errors = countFailures trace ∧
    (RunForDurationWithRate rate c trace dur).1.totalRequests =
      sumCounts (RunForDurationWithRate rate c trace dur).1.statusCounts := by
  obtain ⟨h1, h2, h3, -⟩ := foldl_recordDuration_fields trace
    { duration := 0, totalRequests := 0, succeeded200 := 0,
      statusCounts := [], errors := 0 }
  refine ⟨?_, ?_, ?_⟩
  · simp only [RunForDuration]
    rw [h1, h3]
    rfl
  · simp only [RunForDuration]
    rw [h2]
    simp [sumCounts]
  · by_cases hr : rate ≤ 0
    · simp [RunForDurationWithRate, hr, sumCounts]
    · simp only [RunForDurationWithRate, if_neg hr]
      rw [h1, h3]
      rfl

/-- C10: in every mode, the Succeeded200 counter equals the histogram entry
for status 200: both are incremented together exactly when a completed
exchange has status 200. -/
theorem C10_succeeded200 (total : Nat) (c : Int) (trace : List Outcome)
    (dur : Int) (rate : ℚ) :
    (RunWithOptions total c trace dur).1.succeeded200 =
      lookupCount (RunWithOptions total c trace dur).1.statusCounts 200 ∧
    (RunForDuration c trace dur).1.succeeded200 =
      lookupCount (RunForDuration c trace dur).1.statusCounts 200 ∧
    (RunForDurationWithRate rate c trace dur).1.succeeded200 =
      lookupCount (RunForDurationWithRate rate c trace dur).1.statusCounts 200 := by
  refine ⟨?_, ?_, ?_⟩
  · simp only [RunWithOptions]
    exact foldl_recordCount_succ200 trace _ rfl
  · simp only [RunForDuration]
    exact foldl_recordDuration_succ200 trace _ rfl
  · by_cases hr : rate ≤ 0
    · simp [RunForDurationWithRate, hr, lookupCount]
    · simp only [RunForDurationWithRate, if_neg hr]
      exact foldl_recordDuration_succ200 trace _ rfl

/-- C5: per-attempt classification. A failed attempt increments only the
error count (all other report fields are untouched) and is never retried; a
completed exchange with any status code (4xx/5xx included) increments the
histogram entry for its code and never the error count; every attempt is
recorded exactly once (Errors + sum of histogram = number of attempts); and
no entry operation ever returns a non-nil error for per-request failures. -/
theorem C5_outcome_accounting :
    (∀ rep : Report,
        recordCount rep .failure = { rep with errors := rep.errors + 1 } ∧
        recordDuration rep .failure = { rep with errors := rep.errors + 1 }) ∧
    (∀ (rep : Report) (code : Nat),
        (recordCount rep (.success code)).errors = rep.errors ∧
        (recordDuration rep (.success code)).errors = rep.errors ∧
        lookupCount (recordCount rep (.success code)).statusCounts code =
          lookupCount rep.statusCounts code + 1 ∧
        lookupCount (recordDuration rep (.success code)).statusCounts code =
          lookupCount rep.statusCounts code + 1) ∧
    (∀ (total : Nat) (c : Int) (trace : List Outcome) (dur : Int),
        (RunWithOptions total c trace dur).2 = none ∧
        (RunForDuration c trace dur).2 = none ∧
        (RunWithOptions total c trace dur).1.errors +
            sumCounts (RunWithOptions total c trace dur).1.statusCounts =
          trace.length ∧
        (RunForDuration c trace dur).1.errors +
            sumCounts (RunForDuration c trace dur).1.statusCounts =
          trace.length) ∧
    (∀ (rate : ℚ) (c : Int) (trace : List Outcome) (dur : Int),
        (RunForDurationWithRate rate c trace dur).2 = none ∧
        (0 < rate →
          (RunForDurationWithRate rate c trace dur).1.errors +
              sumCounts
                (RunForDurationWithRate rate c trace dur).1.statusCounts =
            trace.length)) := by
  refine ⟨fun rep => ⟨rfl, rfl⟩, ?_, ?_, ?_⟩
  · intro rep code
    exact ⟨rfl, rfl, by simp [recordCount, lookupCount_bump],
      by simp [recordDuration, lookupCount_bump]⟩
  · intro total c trace dur
    obtain ⟨-, hc2, hc3, -⟩ := foldl_recordCount_fields trace
      { duration := 0, totalRequests := total, succeeded200 := 0,
        statusCounts := [], errors := 0 }
    obtain ⟨-, hd2, hd3, -⟩ := foldl_recordDuration_fields trace
      { duration := 0, totalRequests := 0, succeeded200 := 0,
        statusCounts := [], errors := 0 }
    have hlen := countSuccesses_add_countFailures trace
    refine ⟨rfl, rfl, ?_, ?_⟩
    · simp only [RunWithOptions]
      rw [hc2, hc3]
      simp [sumCounts]
      omega
    · simp only [RunForDuration]
      rw [hd2, hd3]
      simp [sumCounts]
      omega
  · intro rate c trace dur
    by_cases hr : rate ≤ 0
    · exact ⟨by simp [RunForDurationWithRate, hr],
        fun hpos => absurd hpos (not_lt.mpr hr)⟩
    · obtain ⟨-, hd2, hd3, -⟩ := foldl_recordDuration_fields trace
        { duration := 0, totalRequests := 0, succeeded200 := 0,
          statusCounts := [], errors := 0 }
      have hlen := countSuccesses_add_countFailures trace
      refine ⟨by simp [RunForDurationWithRate, hr], fun _ => ?_⟩
      simp only [RunForDurationWithRate, if_neg hr]
      rw [hd2, hd3]
      simp [sumCounts]
      omega

theorem C5_outcome_accounting_witness :
    (RunForDurationWithRate 5 2 [Outcome.failure, Outcome.success 503] 9).1.errors +
        sumCounts
          (RunForDurationWithRate 5 2
            [Outcome.failure, Outcome.success 503] 9).1.statusCounts = 2 :=
  (C5_outcome_accounting.2.2.2 5 2 [Outcome.failure, Outcome.success 503] 9).2
    (by norm_num)

/-- C1 (counterexample): the spec's accounting invariant
`TotalRequests = sum of histogram + Errors` fails on the code: a
duration-bounded run whose single attempt fails at the transport level
reports TotalRequests = 0 but Errors = 1 (workers increment TotalRequests
only on a completed exchange, runner.go lines 183-197). -/
theorem C1_counterexample :
    ¬ ((RunForDuration 1 [Outcome.failure] 5).1.totalRequests =
        sumCounts (RunForDuration 1 [Outcome.failure] 5).1.statusCounts +
        (RunForDuration 1 [Outcome.failure] 5).1.errors) := by
  decide

/-- C1 (amended): the accounting invariant holds mode by mode in the form
the code implements: a count-bounded run in which all `total` enqueued jobs
are processed satisfies `TotalRequests = sum of histogram + Errors`
(TotalRequests is preset to `total`, runner.go line 44); the
duration-bounded and rate-bounded runs satisfy
`TotalRequests = sum of histogram`, with Errors counted separately. -/
theorem C1_accounting_amended (total : Nat) (c : Int) (trace : List Outcome)
    (dur : Int) (hall : trace.length = total) :
    ((RunWithOptions total c trace dur).1.totalRequests =
      sumCounts (RunWithOptions total c trace dur).1.statusCounts +
      (RunWithOptions total c trace dur).1.errors) ∧
    (∀ (c2 : Int) (trace2 : List Outcome) (dur2 : Int),
        (RunForDuration c2 trace2 dur2).1.totalRequests =
          sumCounts (RunForDuration c2 trace2 dur2).1.statusCounts) ∧
    (∀ (rate : ℚ) (c2 : Int) (trace2 : List Outcome) (dur2 : Int),
        (RunForDurationWithRate rate c2 trace2 dur2).1.totalRequests =
          sumCounts
            (RunForDurationWithRate rate c2 trace2 dur2).1.statusCounts) := by
  refine ⟨?_, fun c2 trace2 dur2 => (C9_duration_modes_total c2 trace2 dur2 1).1,
    fun rate c2 trace2 dur2 => (C9_duration_modes_total c2 trace2 dur2 rate).2.2⟩
  obtain ⟨h1, h2, h3, -⟩ := foldl_recordCount_fields trace
    { duration := 0, totalRequests := total, succeeded200 := 0,
      statusCounts := [], errors := 0 }
  have hlen := countSuccesses_add_countFailures trace
  simp only [RunWithOptions]
  rw [h1, h2, h3]
  simp [sumCounts]
  omega

theorem C1_accounting_amended_witness :
    (RunWithOptions 2 1 [Outcome.success 200, Outcome.failure] 5).1.totalRequests =
      sumCounts (RunWithOptions 2 1
        [Outcome.success 200, Outcome.failure] 5).1.statusCounts +
      (RunWithOptions 2 1 [Outcome.success 200, Outcome.failure] 5).1.errors :=
  (C1_accounting_amended 2 1 [Outcome.success 200, Outcome.failure] 5 rfl).1

/-- C2 (counterexample): cancelling a count-bounded run mid-way does not
leave TotalRequests strictly below the configured total: with total = 2 and
only one job processed before cancellation, the report still has
TotalRequests = 2, because RunWithOptions presets TotalRequests to the
configured total (runner.go line 44) and never adjusts it. -/
theorem C2_counterexample :
    [Outcome.success 200].length < 2 ∧
    ¬ ((RunWithOptions 2 1 [Outcome.success 200] 5).1.totalRequests < 2) := by
  decide

/-- C2 (amended): cancelling a count-bounded run mid-way (trace of processed
jobs shorter than the configured total) completes without panic with a nil
error, but TotalRequests equals the configured total (preset at line 44),
and the accounting holds only in the weakened form
`sum of histogram + Errors = number of jobs actually processed ≤ total`. -/
theorem C2_cancellation_amended (total : Nat) (c : Int) (trace : List Outcome)
    (dur : Int) (hproc : trace.length ≤ total) :
    (RunWithOptions total c trace dur).1.totalRequests = total ∧
    (RunWithOptions total c trace dur).2 = none ∧
    sumCounts (RunWithOptions total c trace dur).1.statusCounts +
        (RunWithOptions total c trace dur).1.errors = trace.length ∧
    sumCounts (RunWithOptions total c trace dur).1.statusCounts +
        (RunWithOptions total c trace dur).1.errors ≤ total := by
  obtain ⟨h1, h2, h3, -⟩ := foldl_recordCount_fields trace
    { duration := 0, totalRequests := total, succeeded200 := 0,
      statusCounts := [], errors := 0 }
  have hlen := countSuccesses_add_countFailures trace
  refine ⟨?_, rfl, ?_, ?_⟩
  · simp only [RunWithOptions]
    rw [h1]
  · simp only [RunWithOptions]
    rw [h2, h3]
    simp [sumCounts]
    omega
  · simp only [RunWithOptions]
    rw [h2, h3]
    simp [sumCounts]
    omega

theorem C2_cancellation_amended_witness :
    (RunWithOptions 2 1 [Outcome.success 200] 5).1.totalRequests = 2 ∧
    (RunWithOptions 2 1 [Outcome.success 200] 5).2 = none ∧
    sumCounts (RunWithOptions 2 1 [Outcome.success 200] 5).1.statusCounts +
        (RunWithOptions 2 1 [Outcome.success 200] 5).1.errors = 1 ∧
    sumCounts (RunWithOptions 2 1 [Outcome.success 200] 5).1.statusCounts +
        (RunWithOptions 2 1 [Outcome.success 200] 5).1.errors ≤ 2 :=
  C2_cancellation_amended 2 1 [Outcome.success 200] 5 (by decide)

/-- C8 (counterexample): the permit channel of the paced mode does not hold
at most one unconsumed permit: its capacity is 1024 (runner.go line 226),
and a state with two buffered permits is reachable by two generator emits
before any worker consumes. -/
theorem C8_counterexample :
    ¬ (∀ s : PacerState, PacerReachable s → s.queued ≤ 1) := by
  intro h
  have h1 : PacerStep PacerInit ⟨1, false⟩ :=
    PacerStep.emit PacerInit rfl (by decide)
  have h2 : PacerStep ⟨1, false⟩ ⟨2, false⟩ :=
    PacerStep.emit ⟨1, false⟩ rfl (by decide)
  have hr : PacerReachable ⟨2, false⟩ :=
    PacerReachable.step (PacerReachable.step PacerReachable.init h1) h2
  exact absurd (h _ hr) (by decide)

/-- C8 (amended): the permit buffer is bounded by the channel capacity 1024
in every reachable state, and once the generator has observed the deadline
or cancellation it never emits another permit: any step from a stopped
state leaves it stopped and never increases the number of buffered
permits. -/
theorem C8_pacer_amended :
    (∀ s : PacerState, PacerReachable s → s.queued ≤ jobsCapacity) ∧
    (∀ s s' : PacerState, s.stopped = true → PacerStep s s' →
      s'.queued ≤ s.queued ∧ s'.stopped = true) := by
  constructor
  · intro s hs
    induction hs with
    | init => decide
    | step hs hstep ih =>
      cases hstep with
      | emit hstop hlt => exact hlt
      | consume hpos => exact Nat.le_trans (Nat.sub_le _ _) ih
      | stop => exact ih
  · intro s s' hstop hstep
    cases hstep with
    | emit h1 h2 => rw [hstop] at h1; exact absurd h1 (by simp)
    | consume hpos => exact ⟨Nat.sub_le _ _, hstop⟩
    | stop => exact ⟨Nat.le_refl _, rfl⟩

theorem C8_pacer_amended_witness :
    PacerInit.queued ≤ jobsCapacity ∧
    ((⟨2, true⟩ : PacerState).queued ≤ (⟨3, true⟩ : PacerState).queued ∧
      (⟨2, true⟩ : PacerState).stopped = true) :=
  ⟨C8_pacer_amended.1 PacerInit PacerReachable.init,
    C8_pacer_amended.2 ⟨3, true⟩ ⟨2, true⟩ rfl
      (PacerStep.consume ⟨3, true⟩ (by decide))⟩

end StressTest
